import Mathlib

/-!
Verification development for the extraction-to-schema normalizer of this
repository.  The embedded function is `normalize_to_schema` from
`src/backend/pipeline.py` (the vision pipeline; `server.py` imports its
`normalize_to_schema`), together with the field list of the pydantic model
`FundDocExtraction` from `src/backend/docs/docling_langextract/schema.py`,
which the pipeline instantiates at the end.

Modelling conventions:
* Python dicts with string keys are association lists with unique keys in
  insertion order; a dict entry that may be explicitly set to `None` is an
  `Option (Option _)` (outer layer: key present; inner layer: stored value).
* Python `float(...)` is modelled over exact rationals.  The strings it is
  applied to here contain only digits, `.` and `-` (everything else was
  stripped by `re.sub`), and every value appearing in the claims is exactly
  representable, so no IEEE rounding behaviour is relied on.
* A raised `ValueError` of `int(...)`/`float(...)` is modelled as `none`;
  the surrounding `try/except` stores Python `None`, i.e. `some none`.
-/

namespace VisionPipeline

/-- One LangExtract extraction object as read by `normalize_to_schema`:
its `extraction_class`, `extraction_text` and `attributes` dict. -/
structure Extraction where
  extraction_class : String
  extraction_text : String
  attributes : List (String × String) := []
deriving DecidableEq, Repr

/-- Python truthiness of `current_investment_name` / `current_investment_type`
(variables holding `None` or a string): `None` and `""` are falsy. -/
def pyTruthy : Option String → Bool
  | none => false
  | some s => s != ""

/-- Model of `re.sub(r"[^0-9.\-]", "", txt)`: keep only ASCII digits,
the dot and the minus sign. -/
def cleanNumeric (s : String) : String :=
  ⟨s.data.filter (fun c => c.isDigit || c == '.' || c == '-')⟩

/-- Base-10 value of a list of ASCII digit characters. -/
def digitsVal (cs : List Char) : Nat :=
  cs.foldl (fun n c => 10 * n + (c.toNat - 48)) 0

/-- Unsigned part of Python `float` on a string made only of digits, `.`
and `-`: accepted shapes are `digits`, `digits.`, `digits.digits` and
`.digits`; anything else (empty input, an interior `-`, a second `.`)
raises `ValueError`, modelled as `none`. -/
def floatBody (cs : List Char) : Option ℚ :=
  let ip := cs.takeWhile Char.isDigit
  match cs.drop ip.length with
  | [] => if ip.isEmpty then none else some (digitsVal ip)
  | '.' :: fp =>
      if fp.all Char.isDigit && (!ip.isEmpty || !fp.isEmpty) then
        some ((digitsVal ip : ℚ) + (digitsVal fp : ℚ) / (10 : ℚ) ^ fp.length)
      else none
  | _ => none

/-- Model of Python `float(s)` for the strings produced by `cleanNumeric`
(an optional leading minus sign, then `floatBody`). -/
def pyFloat (s : String) : Option ℚ :=
  match s.data with
  | '-' :: rest => (floatBody rest).map (fun q => -q)
  | cs => floatBody cs

/-- Model of `int(re.sub(r"\D", "", txt))`: strip every non-digit and parse
the remaining digits; the empty string raises, modelled as `none`. -/
def pyInt (s : String) : Option Int :=
  let ds := s.data.filter Char.isDigit
  if ds.isEmpty then none else some (digitsVal ds)

/-- The `data["fund"]` dict built by the loop (a key absent from the dict is
the outer `none`; `vintage_year` may be stored as Python `None`). -/
structure FundRec where
  fund_name : Option String := none
  fund_reporting_period : Option String := none
  vintage_year : Option (Option Int) := none
  domicile : Option String := none
  strategy : Option String := none
  gp_name : Option String := none
deriving DecidableEq, Repr

/-- The `data["fees"]` dict built by the loop; all values raw text. -/
structure FeeRec where
  management_fee : Option String := none
  carry : Option String := none
  hurdle_rate : Option String := none
  catch_up : Option String := none
deriving DecidableEq, Repr

/-- One entry of `data["contacts"]`. -/
structure ContactRec where
  name : String
  title : Option String := none
  email : Option String := none
  phone : Option String := none
deriving DecidableEq, Repr

/-- One value of the `investment_groups` dict: a Python dict whose keys are
set by the branches of the loop.  Numeric fields are `Option (Option ℚ)`
because the `except` arms store an explicit `None` (`some none`). -/
structure InvestmentRec where
  investment_name : Option String := none
  investment_type : Option String := none
  industry : Option String := none
  country : Option String := none
  currency : Option String := none
  investment_date : Option String := none
  investment_cost : Option (Option ℚ) := none
  fair_value : Option (Option ℚ) := none
  interest_fee_receivable : Option (Option ℚ) := none
  total : Option (Option ℚ) := none
  currency_exposure : Option String := none
  ownership : Option (Option ℚ) := none
  number_of_shares : Option (Option ℚ) := none
  moic : Option (Option ℚ) := none
deriving DecidableEq, Repr

/-- The mutable state of the loop in `normalize_to_schema`: the `data` dict
under construction, the `investment_groups` dict (insertion ordered) and the
two rolling variables. -/
structure NormState where
  fund : FundRec := {}
  fees : FeeRec := {}
  contacts : List ContactRec := []
  source_anchors : List String := []
  investment_groups : List (String × InvestmentRec) := []
  current_investment_name : Option String := none
  current_investment_type : Option String := none
deriving DecidableEq, Repr

/-- Python dict lookup on `investment_groups` (keys are unique, first match). -/
def lookupGroup (k : String) : List (String × InvestmentRec) → Option InvestmentRec
  | [] => none
  | (a, b) :: t => if a = k then some b else lookupGroup k t

/-- Python `if unique_key not in investment_groups: investment_groups[unique_key] = v`. -/
def ensureGroup (gs : List (String × InvestmentRec)) (k : String) (v : InvestmentRec) :
    List (String × InvestmentRec) :=
  if (lookupGroup k gs).isSome then gs else gs ++ [(k, v)]

/-- Python `investment_groups[unique_key][field] = value` with `unique_key`
already present: rewrite the entry stored under `k`. -/
def setGroup (gs : List (String × InvestmentRec)) (k : String)
    (f : InvestmentRec → InvestmentRec) : List (String × InvestmentRec) :=
  gs.map (fun p => if p.1 = k then (p.1, f p.2) else p)

/-- Python `f"{current_investment_name}_{current_investment_type}"` (both
variables hold strings whenever this is evaluated). -/
def currentKey (st : NormState) : String :=
  st.current_investment_name.getD "" ++ "_" ++ st.current_investment_type.getD ""

/-- Shared shape of the twelve investment-scoped `elif` branches: when both
`current_investment_name` and `current_investment_type` are truthy, compute
`unique_key = f"{name}_{type}"`, ensure a record exists under it (created
with the current name and type), and update one field; otherwise the branch
does nothing. -/
def attachInvestment (st : NormState) (f : InvestmentRec → InvestmentRec) : NormState :=
  if pyTruthy st.current_investment_name && pyTruthy st.current_investment_type then
    let key := currentKey st
    let gs := ensureGroup st.investment_groups key
      { investment_name := st.current_investment_name,
        investment_type := st.current_investment_type }
    { st with investment_groups := setGroup gs key f }
  else st

/-- The `if/elif` dispatch of the loop body on `extraction_class`
(the classes are distinct string literals, so the `elif` chain is a match). -/
def processExtraction (st : NormState) (cls txt : String)
    (attrs : List (String × String)) : NormState :=
  match cls with
  | "fund_name" => { st with fund := { st.fund with fund_name := some txt } }
  | "fund_reporting_period" =>
      { st with fund := { st.fund with fund_reporting_period := some txt } }
  | "vintage_year" => { st with fund := { st.fund with vintage_year := some (pyInt txt) } }
  | "domicile" => { st with fund := { st.fund with domicile := some txt } }
  | "strategy" => { st with fund := { st.fund with strategy := some txt } }
  | "gp_name" => { st with fund := { st.fund with gp_name := some txt } }
  | "management_fee" => { st with fees := { st.fees with management_fee := some txt } }
  | "carry" => { st with fees := { st.fees with carry := some txt } }
  | "hurdle_rate" => { st with fees := { st.fees with hurdle_rate := some txt } }
  | "catch_up" => { st with fees := { st.fees with catch_up := some txt } }
  | "investment_name" =>
      let st1 := { st with current_investment_name := some txt }
      let key := if pyTruthy st1.current_investment_type then
          txt ++ "_" ++ st1.current_investment_type.getD ""
        else txt
      { st1 with investment_groups :=
          ensureGroup st1.investment_groups key { investment_name := some txt } }
  | "investment_type" =>
      let st1 := { st with current_investment_type := some txt }
      if pyTruthy st1.current_investment_name then
        let key := st1.current_investment_name.getD "" ++ "_" ++ txt
        let gs := ensureGroup st1.investment_groups key
          { investment_name := st1.current_investment_name }
        { st1 with investment_groups :=
            setGroup gs key (fun g => { g with investment_type := some txt }) }
      else st1
  | "industry" => attachInvestment st (fun g => { g with industry := some txt })
  | "country" => attachInvestment st (fun g => { g with country := some txt })
  | "currency" => attachInvestment st (fun g => { g with currency := some txt })
  | "investment_date" => attachInvestment st (fun g => { g with investment_date := some txt })
  | "investment_cost" =>
      attachInvestment st (fun g => { g with investment_cost := some (pyFloat (cleanNumeric txt)) })
  | "fair_value" =>
      attachInvestment st (fun g => { g with fair_value := some (pyFloat (cleanNumeric txt)) })
  | "interest_fee_receivable" =>
      attachInvestment st
        (fun g => { g with interest_fee_receivable := some (pyFloat (cleanNumeric txt)) })
  | "total" =>
      attachInvestment st (fun g => { g with total := some (pyFloat (cleanNumeric txt)) })
  | "currency_exposure" =>
      attachInvestment st (fun g => { g with currency_exposure := some txt })
  | "ownership" =>
      attachInvestment st (fun g => { g with ownership := some (pyFloat (cleanNumeric txt)) })
  | "number_of_shares" =>
      attachInvestment st
        (fun g => { g with number_of_shares := some (pyFloat (cleanNumeric txt)) })
  | "moic" =>
      attachInvestment st (fun g => { g with moic := some (pyFloat (cleanNumeric txt)) })
  | "contact" =>
      { st with contacts := st.contacts ++
          [{ name := txt, title := attrs.lookup "title",
             email := attrs.lookup "email", phone := attrs.lookup "phone" }] }
  | _ => st

/-- One iteration of the loop: dispatch on the class, then — regardless of
the label — collect `attributes["anchor"]` when present. -/
def processOne (st : NormState) (ext : Extraction) : NormState :=
  let st1 := processExtraction st ext.extraction_class ext.extraction_text ext.attributes
  match ext.attributes.lookup "anchor" with
  | some a => { st1 with source_anchors := st1.source_anchors ++ [a] }
  | none => st1

/-- The retention test of the final cleanup loop: Python
`inv.get(field) is not None` for `investment_cost`, `fair_value`,
`ownership` (`get` yields `None` both for an absent key and a stored
`None`). -/
def hasFinancialData (g : InvestmentRec) : Bool :=
  (g.investment_cost.getD none).isSome || (g.fair_value.getD none).isSome ||
    (g.ownership.getD none).isSome

/-- The `data` dict as it stands right before `FundDocExtraction(**data)`:
the output of the normalization logic proper. -/
structure NormalizedDoc where
  fund : FundRec
  investments : List InvestmentRec
  fees : FeeRec
  contacts : List ContactRec
  source_anchors : List String
deriving DecidableEq, Repr

/-- Model of `normalize_to_schema` of `src/backend/pipeline.py`: fold the
loop body over the extractions in order, then run the final cleanup loop —
keep only groups with financial data, overwrite the currency of every kept
record with `"USD"`, in insertion order of the grouping key. -/
def normalize_to_schema (exts : List Extraction) : NormalizedDoc :=
  let st := exts.foldl processOne {}
  { fund := st.fund
    investments := (st.investment_groups.map Prod.snd).filterMap
      (fun g => if hasFinancialData g then some { g with currency := some "USD" } else none)
    fees := st.fees
    contacts := st.contacts
    source_anchors := st.source_anchors }

/-- Declared field names, in order, of the pydantic model `FundDocExtraction`
in `src/backend/docs/docling_langextract/schema.py` (lines 40–46): these are
the top-level keys of `model.model_dump_json(...)`; keys of the `**data`
argument outside this list are ignored by pydantic model construction. -/
def fundDocExtractionFields : List String :=
  ["fund", "investment", "fees", "contacts", "source_anchors"]

/-! ### Frame lemmas for the loop body -/

@[simp] lemma attachInvestment_fund (st : NormState) (f : InvestmentRec → InvestmentRec) :
    (attachInvestment st f).fund = st.fund := by
  unfold attachInvestment; split <;> rfl

@[simp] lemma attachInvestment_fees (st : NormState) (f : InvestmentRec → InvestmentRec) :
    (attachInvestment st f).fees = st.fees := by
  unfold attachInvestment; split <;> rfl

@[simp] lemma attachInvestment_contacts (st : NormState) (f : InvestmentRec → InvestmentRec) :
    (attachInvestment st f).contacts = st.contacts := by
  unfold attachInvestment; split <;> rfl

@[simp] lemma attachInvestment_source_anchors (st : NormState)
    (f : InvestmentRec → InvestmentRec) :
    (attachInvestment st f).source_anchors = st.source_anchors := by
  unfold attachInvestment; split <;> rfl

@[simp] lemma attachInvestment_current_investment_name (st : NormState)
    (f : InvestmentRec → InvestmentRec) :
    (attachInvestment st f).current_investment_name = st.current_investment_name := by
  unfold attachInvestment; split <;> rfl

@[simp] lemma attachInvestment_current_investment_type (st : NormState)
    (f : InvestmentRec → InvestmentRec) :
    (attachInvestment st f).current_investment_type = st.current_investment_type := by
  unfold attachInvestment; split <;> rfl

lemma processExtraction_source_anchors (st : NormState) (cls txt : String)
    (attrs : List (String × String)) :
    (processExtraction st cls txt attrs).source_anchors = st.source_anchors := by
  unfold processExtraction
  split <;> simp [apply_ite]

lemma processOne_fund (st : NormState) (e : Extraction) :
    (processOne st e).fund =
      (processExtraction st e.extraction_class e.extraction_text e.attributes).fund := by
  unfold processOne; split <;> rfl

lemma processOne_fees (st : NormState) (e : Extraction) :
    (processOne st e).fees =
      (processExtraction st e.extraction_class e.extraction_text e.attributes).fees := by
  unfold processOne; split <;> rfl

lemma processOne_contacts (st : NormState) (e : Extraction) :
    (processOne st e).contacts =
      (processExtraction st e.extraction_class e.extraction_text e.attributes).contacts := by
  unfold processOne; split <;> rfl

lemma processOne_investment_groups (st : NormState) (e : Extraction) :
    (processOne st e).investment_groups =
      (processExtraction st e.extraction_class e.extraction_text
        e.attributes).investment_groups := by
  unfold processOne; split <;> rfl

lemma processOne_current_investment_name (st : NormState) (e : Extraction) :
    (processOne st e).current_investment_name =
      (processExtraction st e.extraction_class e.extraction_text
        e.attributes).current_investment_name := by
  unfold processOne; split <;> rfl

lemma processOne_source_anchors (st : NormState) (e : Extraction) :
    (processOne st e).source_anchors =
      st.source_anchors ++ (e.attributes.lookup "anchor").toList := by
  unfold processOne
  cases h : e.attributes.lookup "anchor" <;>
    simp [h, processExtraction_source_anchors]

/-! ### Last-wins projections for the fund and fee branches -/

lemma processExtraction_fund_name (st : NormState) (cls txt : String)
    (attrs : List (String × String)) :
    (processExtraction st cls txt attrs).fund.fund_name =
      if cls == "fund_name" then some txt else st.fund.fund_name := by
  unfold processExtraction
  split <;> simp_all [beq_iff_eq, apply_ite]

lemma processExtraction_fund_reporting_period (st : NormState) (cls txt : String)
    (attrs : List (String × String)) :
    (processExtraction st cls txt attrs).fund.fund_reporting_period =
      if cls == "fund_reporting_period" then some txt else st.fund.fund_reporting_period := by
  unfold processExtraction
  split <;> simp_all [beq_iff_eq, apply_ite]

lemma processExtraction_vintage_year (st : NormState) (cls txt : String)
    (attrs : List (String × String)) :
    (processExtraction st cls txt attrs).fund.vintage_year =
      if cls == "vintage_year" then some (pyInt txt) else st.fund.vintage_year := by
  unfold processExtraction
  split <;> simp_all [beq_iff_eq, apply_ite]

lemma processExtraction_domicile (st : NormState) (cls txt : String)
    (attrs : List (String × String)) :
    (processExtraction st cls txt attrs).fund.domicile =
      if cls == "domicile" then some txt else st.fund.domicile := by
  unfold processExtraction
  split <;> simp_all [beq_iff_eq, apply_ite]

lemma processExtraction_strategy (st : NormState) (cls txt : String)
    (attrs : List (String × String)) :
    (processExtraction st cls txt attrs).fund.strategy =
      if cls == "strategy" then some txt else st.fund.strategy := by
  unfold processExtraction
  split <;> simp_all [beq_iff_eq, apply_ite]

lemma processExtraction_gp_name (st : NormState) (cls txt : String)
    (attrs : List (String × String)) :
    (processExtraction st cls txt attrs).fund.gp_name =
      if cls == "gp_name" then some txt else st.fund.gp_name := by
  unfold processExtraction
  split <;> simp_all [beq_iff_eq, apply_ite]

lemma processExtraction_management_fee (st : NormState) (cls txt : String)
    (attrs : List (String × String)) :
    (processExtraction st cls txt attrs).fees.management_fee =
      if cls == "management_fee" then some txt else st.fees.management_fee := by
  unfold processExtraction
  split <;> simp_all [beq_iff_eq, apply_ite]

lemma processExtraction_carry (st : NormState) (cls txt : String)
    (attrs : List (String × String)) :
    (processExtraction st cls txt attrs).fees.carry =
      if cls == "carry" then some txt else st.fees.carry := by
  unfold processExtraction
  split <;> simp_all [beq_iff_eq, apply_ite]

lemma processExtraction_hurdle_rate (st : NormState) (cls txt : String)
    (attrs : List (String × String)) :
    (processExtraction st cls txt attrs).fees.hurdle_rate =
      if cls == "hurdle_rate" then some txt else st.fees.hurdle_rate := by
  unfold processExtraction
  split <;> simp_all [beq_iff_eq, apply_ite]

lemma processExtraction_catch_up (st : NormState) (cls txt : String)
    (attrs : List (String × String)) :
    (processExtraction st cls txt attrs).fees.catch_up =
      if cls == "catch_up" then some txt else st.fees.catch_up := by
  unfold processExtraction
  split <;> simp_all [beq_iff_eq, apply_ite]

/-- Last-wins accumulator lemma: any state component that exactly one branch
of the loop body overwrites ends up holding the value derived from the last
extraction of that class (or its initial value when no such extraction
occurs). -/
lemma foldl_lastWins {α : Type} (proj : NormState → Option α) (derive : Extraction → α)
    (c : String)
    (hstep : ∀ st e, proj (processOne st e) =
      if e.extraction_class == c then some (derive e) else proj st)
    (exts : List Extraction) (st : NormState) :
    proj (exts.foldl processOne st) =
      ((exts.filter (fun e => e.extraction_class == c)).getLast?).elim (proj st)
        (fun e => some (derive e)) := by
  induction exts using List.reverseRecOn generalizing st with
  | nil => simp
  | append_singleton l a ih =>
      rw [List.foldl_append, List.foldl_cons, List.foldl_nil, hstep, List.filter_append]
      by_cases h : a.extraction_class == c
      · simp [h, List.getLast?_concat]
      · simp [h, ih]

/-! ### Dict lemmas for `investment_groups` -/

lemma lookupGroup_append (l l2 : List (String × InvestmentRec)) (k : String) :
    lookupGroup k (l ++ l2) =
      if (lookupGroup k l).isSome then lookupGroup k l else lookupGroup k l2 := by
  induction l with
  | nil => simp [lookupGroup]
  | cons p t ih =>
      obtain ⟨a, b⟩ := p
      by_cases h : a = k
      · simp [lookupGroup, h]
      · simp [lookupGroup, h, ih]

lemma ensureGroup_of_isSome (gs : List (String × InvestmentRec)) (k : String)
    (v : InvestmentRec) (h : (lookupGroup k gs).isSome) : ensureGroup gs k v = gs := by
  unfold ensureGroup; exact if_pos h

lemma lookup_ensureGroup_self (gs : List (String × InvestmentRec)) (k : String)
    (v : InvestmentRec) :
    lookupGroup k (ensureGroup gs k v) = some ((lookupGroup k gs).getD v) := by
  unfold ensureGroup
  by_cases h : (lookupGroup k gs).isSome
  · rw [if_pos h]
    obtain ⟨x, hx⟩ := Option.isSome_iff_exists.mp h
    simp [hx]
  · rw [if_neg h, lookupGroup_append, if_neg h]
    rw [Option.not_isSome_iff_eq_none] at h
    simp [h, lookupGroup]

lemma lookup_setGroup (gs : List (String × InvestmentRec)) (k : String)
    (f : InvestmentRec → InvestmentRec) :
    lookupGroup k (setGroup gs k f) = (lookupGroup k gs).map f := by
  induction gs with
  | nil => rfl
  | cons p t ih =>
      obtain ⟨a, b⟩ := p
      simp only [setGroup, List.map_cons]
      by_cases h : a = k
      · rw [show (if ((a, b) : String × InvestmentRec).1 = k then ((a, b).1, f (a, b).2)
            else (a, b)) = (a, f b) from if_pos h]
        simp [lookupGroup, h]
      · rw [show (if ((a, b) : String × InvestmentRec).1 = k then ((a, b).1, f (a, b).2)
            else (a, b)) = (a, b) from if_neg h]
        simp only [lookupGroup, if_neg h]
        exact ih

lemma mem_ensureGroup (gs : List (String × InvestmentRec)) (k : String)
    (v : InvestmentRec) (p : String × InvestmentRec) (hp : p ∈ ensureGroup gs k v) :
    p ∈ gs ∨ p = (k, v) := by
  unfold ensureGroup at hp
  split at hp
  · exact Or.inl hp
  · rcases List.mem_append.mp hp with h | h
    · exact Or.inl h
    · exact Or.inr (List.mem_singleton.mp h)

lemma mem_setGroup (gs : List (String × InvestmentRec)) (k : String)
    (f : InvestmentRec → InvestmentRec) (p : String × InvestmentRec)
    (hp : p ∈ setGroup gs k f) :
    ∃ q ∈ gs, p = if q.1 = k then (q.1, f q.2) else q := by
  obtain ⟨q, hq, hfq⟩ := List.mem_map.mp hp
  exact ⟨q, hq, hfq.symm⟩

lemma pyTruthy_isSome (o : Option String) (h : pyTruthy o = true) : o.isSome := by
  cases o <;> simp_all [pyTruthy]

lemma attachInvestment_of_false (st : NormState) (f : InvestmentRec → InvestmentRec)
    (h : (pyTruthy st.current_investment_name &&
      pyTruthy st.current_investment_type) = false) :
    attachInvestment st f = st := by
  unfold attachInvestment
  simp [h]

lemma lookup_attachInvestment (st : NormState) (f : InvestmentRec → InvestmentRec)
    (h : (pyTruthy st.current_investment_name &&
      pyTruthy st.current_investment_type) = true) :
    lookupGroup (currentKey st) (attachInvestment st f).investment_groups =
      some (f ((lookupGroup (currentKey st) st.investment_groups).getD
        { investment_name := st.current_investment_name,
          investment_type := st.current_investment_type })) := by
  unfold attachInvestment
  rw [if_pos h]
  simp [lookup_setGroup, lookup_ensureGroup_self]

/-! ### Structural lemmas for the finished document -/

lemma elim_none_eq_map {α β : Type} (o : Option α) (d : α → β) :
    o.elim none (fun x => some (d x)) = o.map d := by cases o <;> rfl

lemma source_anchors_foldl (exts : List Extraction) (st : NormState) :
    (exts.foldl processOne st).source_anchors =
      st.source_anchors ++ exts.filterMap (fun e => e.attributes.lookup "anchor") := by
  induction exts generalizing st with
  | nil => simp
  | cons e t ih =>
      rw [List.foldl_cons, ih, processOne_source_anchors]
      cases h : e.attributes.lookup "anchor" <;> simp [h, List.filterMap_cons]

lemma of_mem_investments (exts : List Extraction) (g : InvestmentRec)
    (hg : g ∈ (normalize_to_schema exts).investments) :
    ∃ g0 k, (k, g0) ∈ (exts.foldl processOne {}).investment_groups ∧
      hasFinancialData g0 = true ∧ g = { g0 with currency := some "USD" } := by
  simp only [normalize_to_schema] at hg
  rcases List.mem_filterMap.mp hg with ⟨g0, hg0, hfn⟩
  rcases List.mem_map.mp hg0 with ⟨p, hp, hps⟩
  split at hfn
  · rename_i hfin
    refine ⟨g0, p.1, ?_, hfin, ?_⟩
    · rw [show (p.1, g0) = p from by rw [← hps]]
      exact hp
    · exact (Option.some_injective _ hfn).symm
  · exact absurd hfn (by simp)

/-- Every record in the groups dict has its `investment_name` key set. -/
def groupsNamed (st : NormState) : Prop :=
  ∀ p ∈ st.investment_groups, p.2.investment_name.isSome

lemma groupsNamed_set_ensure (gs : List (String × InvestmentRec)) (k : String)
    (v : InvestmentRec) (f : InvestmentRec → InvestmentRec)
    (hv : v.investment_name.isSome)
    (hf : ∀ g, (f g).investment_name = g.investment_name)
    (h : ∀ p ∈ gs, p.2.investment_name.isSome) :
    ∀ p ∈ setGroup (ensureGroup gs k v) k f, p.2.investment_name.isSome := by
  intro p hp
  rcases mem_setGroup _ _ _ _ hp with ⟨q, hq, hpq⟩
  rcases mem_ensureGroup _ _ _ _ hq with h1 | h1
  · have hq2 := h q h1
    subst hpq
    by_cases hqk : q.1 = k
    · rw [if_pos hqk, hf]; exact hq2
    · rw [if_neg hqk]; exact hq2
  · subst h1
    subst hpq
    rw [if_pos rfl, hf]
    exact hv

lemma groupsNamed_attachInvestment (st : NormState) (f : InvestmentRec → InvestmentRec)
    (hf : ∀ g, (f g).investment_name = g.investment_name)
    (h : groupsNamed st) : groupsNamed (attachInvestment st f) := by
  intro p hp
  unfold attachInvestment at hp
  split at hp
  · rename_i hc
    dsimp only at hp
    exact groupsNamed_set_ensure _ _ _ _
      (pyTruthy_isSome _ (Bool.and_elim_left hc)) hf h p hp
  · exact h p hp

lemma groupsNamed_processOne (st : NormState) (e : Extraction)
    (h : groupsNamed st) : groupsNamed (processOne st e) := by
  intro p hp
  rw [processOne_investment_groups] at hp
  revert hp
  unfold processExtraction
  split
  all_goals intro hp
  all_goals try exact h p hp
  · -- the investment_name branch creates records with the name set
    dsimp only at hp
    rcases mem_ensureGroup _ _ _ _ hp with h1 | h1
    · exact h p h1
    · subst h1; simp
  · -- the investment_type branch creates records with the truthy current name
    dsimp only at hp
    split at hp
    · rename_i hc
      dsimp only at hp
      refine groupsNamed_set_ensure _ _ _ _ (pyTruthy_isSome _ hc) ?_ h p hp
      intro g
      rfl
    · exact h p hp
  -- the twelve attachInvestment branches never change investment_name
  all_goals refine groupsNamed_attachInvestment st _ ?_ h p hp
  all_goals intro g
  all_goals rfl

lemma groupsNamed_foldl (exts : List Extraction) (st : NormState)
    (h : groupsNamed st) : groupsNamed (exts.foldl processOne st) := by
  induction exts generalizing st with
  | nil => exact h
  | cons e t ih => exact ih (processOne st e) (groupsNamed_processOne st e h)

lemma processOne_current_investment_type (st : NormState) (e : Extraction) :
    (processOne st e).current_investment_type =
      (processExtraction st e.extraction_class e.extraction_text
        e.attributes).current_investment_type := by
  unfold processOne; split <;> rfl

/-! ### Concrete span sequences used by the claims -/

/-- Input of the C2 grouping test (also the failing input of C1). -/
def c2spans : List Extraction :=
  [ { extraction_class := "investment_name", extraction_text := "A" },
    { extraction_class := "investment_type", extraction_text := "Equity" },
    { extraction_class := "investment_cost", extraction_text := "$1,000,000" },
    { extraction_class := "fair_value", extraction_text := "$1,200,000" } ]

/-- A span sequence producing one retained investment record. -/
def c1spans : List Extraction :=
  [ { extraction_class := "investment_name", extraction_text := "B" },
    { extraction_class := "investment_type", extraction_text := "Debt" },
    { extraction_class := "investment_cost", extraction_text := "$500" } ]

/-- A span sequence whose only financial datum is an ownership percentage. -/
def c4spans : List Extraction :=
  [ { extraction_class := "investment_name", extraction_text := "C" },
    { extraction_class := "investment_type", extraction_text := "Loan" },
    { extraction_class := "ownership", extraction_text := "51%" } ]

/-- A span sequence with an attached `currency` span of text `"EUR"`. -/
def c6spans : List Extraction :=
  [ { extraction_class := "investment_name", extraction_text := "A" },
    { extraction_class := "investment_type", extraction_text := "Equity" },
    { extraction_class := "currency", extraction_text := "EUR" },
    { extraction_class := "investment_cost", extraction_text := "$100" } ]

/-- Two spans carrying the same anchor string `"p3"`. -/
def c9spans : List Extraction :=
  [ { extraction_class := "fund_name", extraction_text := "F",
      attributes := [("anchor", "p3")] },
    { extraction_class := "contact", extraction_text := "Bob",
      attributes := [("anchor", "p3")] } ]

/-- A span sequence with fair value as its only financial datum. -/
def c10spans : List Extraction :=
  [ { extraction_class := "investment_name", extraction_text := "D" },
    { extraction_class := "investment_type", extraction_text := "Bond" },
    { extraction_class := "fair_value", extraction_text := "$9" } ]

/-- A loop state whose rolling name and type are both truthy. -/
def witnessState3 : NormState :=
  { current_investment_name := some "A", current_investment_type := some "Equity" }

/-! ### The claims -/

/-- C1: the claim says the serialized document has a top-level `investments`
array with one element per retained record.  It does not: the pydantic model
`FundDocExtraction` (schema.py lines 40–46) declares a singular `investment`
field and no `investments` field, so pydantic drops the `investments` key of
`**data` and the serialized JSON carries none of the computed records — here
the normalizer computes one retained record that the schema cannot carry. -/
theorem claim1_schema_drops_investments :
    "investments" ∉ fundDocExtractionFields ∧
    "investment" ∈ fundDocExtractionFields ∧
    (normalize_to_schema c1spans).investments.length = 1 := by
  decide

/-- C2: on the four spans `investment_name="A"`, `investment_type="Equity"`,
`investment_cost="$1,000,000"`, `fair_value="$1,200,000"` in that order, the
final investments list holds exactly one record with name `"A"`, type
`"Equity"`, cost `1000000.0` and fair value `1200000.0`. -/
theorem claim2_grouping_single_record :
    (normalize_to_schema c2spans).investments.map
      (fun g => (g.investment_name, g.investment_type, g.investment_cost, g.fair_value)) =
    [(some "A", some "Equity", some (some (1000000 : ℚ)),
      some (some (1200000 : ℚ)))] := by
  decide

/-- C3: the normalizer never raises on malformed numeric text: in the
embedding a raising `int(...)`/`float(...)` is the `none` of `pyInt`/`pyFloat`
and every dispatch branch is a total function, and whenever the parse of a
numeric-field span (`vintage_year`, `investment_cost`, `fair_value`,
`ownership`, `number_of_shares`, `moic`) fails, the field is stored as an
explicit null (`some none`), not propagated as an error. -/
theorem claim3_failed_parse_stored_null (st : NormState) (txt : String)
    (attrs : List (String × String))
    (hf : pyFloat (cleanNumeric txt) = none) (hi : pyInt txt = none)
    (hname : pyTruthy st.current_investment_name = true)
    (htype : pyTruthy st.current_investment_type = true) :
    (processExtraction st "vintage_year" txt attrs).fund.vintage_year = some none ∧
    (lookupGroup (currentKey st)
      (processExtraction st "investment_cost" txt attrs).investment_groups).map
        (fun g => g.investment_cost) = some (some none) ∧
    (lookupGroup (currentKey st)
      (processExtraction st "fair_value" txt attrs).investment_groups).map
        (fun g => g.fair_value) = some (some none) ∧
    (lookupGroup (currentKey st)
      (processExtraction st "ownership" txt attrs).investment_groups).map
        (fun g => g.ownership) = some (some none) ∧
    (lookupGroup (currentKey st)
      (processExtraction st "number_of_shares" txt attrs).investment_groups).map
        (fun g => g.number_of_shares) = some (some none) ∧
    (lookupGroup (currentKey st)
      (processExtraction st "moic" txt attrs).investment_groups).map
        (fun g => g.moic) = some (some none) := by
  have hand : (pyTruthy st.current_investment_name &&
      pyTruthy st.current_investment_type) = true := by rw [hname, htype]; rfl
  refine ⟨?_, ?_, ?_, ?_, ?_, ?_⟩
  · show some (pyInt txt) = some none
    rw [hi]
  · rw [show processExtraction st "investment_cost" txt attrs = attachInvestment st
        (fun g => { g with investment_cost := some (pyFloat (cleanNumeric txt)) }) from rfl,
      lookup_attachInvestment st _ hand]
    simp [hf]
  · rw [show processExtraction st "fair_value" txt attrs = attachInvestment st
        (fun g => { g with fair_value := some (pyFloat (cleanNumeric txt)) }) from rfl,
      lookup_attachInvestment st _ hand]
    simp [hf]
  · rw [show processExtraction st "ownership" txt attrs = attachInvestment st
        (fun g => { g with ownership := some (pyFloat (cleanNumeric txt)) }) from rfl,
      lookup_attachInvestment st _ hand]
    simp [hf]
  · rw [show processExtraction st "number_of_shares" txt attrs = attachInvestment st
        (fun g => { g with number_of_shares := some (pyFloat (cleanNumeric txt)) }) from rfl,
      lookup_attachInvestment st _ hand]
    simp [hf]
  · rw [show processExtraction st "moic" txt attrs = attachInvestment st
        (fun g => { g with moic := some (pyFloat (cleanNumeric txt)) }) from rfl,
      lookup_attachInvestment st _ hand]
    simp [hf]

/-- Witness for C3 at the adversarial text `"N/A"` (its numeric cleanup is
the empty string, whose parse fails). -/
theorem claim3_witness :
    pyFloat (cleanNumeric "N/A") = none ∧ pyInt "N/A" = none ∧
    (processExtraction witnessState3 "vintage_year" "N/A" []).fund.vintage_year =
      some none ∧
    (lookupGroup (currentKey witnessState3)
      (processExtraction witnessState3 "investment_cost" "N/A" []).investment_groups).map
        (fun g => g.investment_cost) = some (some none) := by
  have h := claim3_failed_parse_stored_null witnessState3 "N/A" [] rfl rfl rfl rfl
  exact ⟨rfl, rfl, h.1, h.2.1⟩

/-- C4: a record is present in the final investments list only if at least
one of its `investment_cost`, `fair_value`, `ownership` entries holds a
non-null value; in particular a record built from name and type spans alone
has none of the three and is excluded. -/
theorem claim4_retained_records_have_financials (exts : List Extraction)
    (g : InvestmentRec) (hg : g ∈ (normalize_to_schema exts).investments) :
    (g.investment_cost.getD none).isSome ∨ (g.fair_value.getD none).isSome ∨
      (g.ownership.getD none).isSome := by
  rcases of_mem_investments exts g hg with ⟨g0, k, hk, hfin, hgeq⟩
  subst hgeq
  unfold hasFinancialData at hfin
  simp only [Bool.or_eq_true] at hfin
  tauto

/-- Witness for C4: the single record retained from `c4spans` (ownership is
its only financial datum). -/
theorem claim4_witness :
    (({ investment_name := some "C", investment_type := some "Loan",
        currency := some "USD",
        ownership := some (some (51 : ℚ)) } :
        InvestmentRec).investment_cost.getD none).isSome ∨
    (({ investment_name := some "C", investment_type := some "Loan",
        currency := some "USD",
        ownership := some (some (51 : ℚ)) } :
        InvestmentRec).fair_value.getD none).isSome ∨
    (({ investment_name := some "C", investment_type := some "Loan",
        currency := some "USD",
        ownership := some (some (51 : ℚ)) } :
        InvestmentRec).ownership.getD none).isSome :=
  claim4_retained_records_have_financials c4spans _ (by decide)

/-- C5: any investment-scoped span (`industry`, `country`, `currency`,
`investment_date`, `investment_cost`, `fair_value`, `interest_fee_receivable`,
`total`, `currency_exposure`, `ownership`, `number_of_shares`, `moic`)
arriving while `current_investment_name` or `current_investment_type` is
still unset (`None`) leaves the investment groups, fund, fees and contacts
unchanged — the span is dropped silently, only anchor collection happens. -/
theorem claim5_orphan_spans_dropped (st : NormState) (e : Extraction)
    (hc : e.extraction_class ∈ ["industry", "country", "currency", "investment_date",
      "investment_cost", "fair_value", "interest_fee_receivable", "total",
      "currency_exposure", "ownership", "number_of_shares", "moic"])
    (h0 : st.current_investment_name = none ∨ st.current_investment_type = none) :
    (processOne st e).investment_groups = st.investment_groups ∧
    (processOne st e).fund = st.fund ∧
    (processOne st e).fees = st.fees ∧
    (processOne st e).contacts = st.contacts := by
  have hfalse : (pyTruthy st.current_investment_name &&
      pyTruthy st.current_investment_type) = false := by
    rcases h0 with h | h <;> rw [h] <;> simp [pyTruthy]
  obtain ⟨cls, txt, attrs⟩ := e
  simp only [List.mem_cons, List.not_mem_nil, or_false] at hc
  have hpe : processExtraction st cls txt attrs = st := by
    rcases hc with rfl | rfl | rfl | rfl | rfl | rfl | rfl | rfl | rfl | rfl | rfl | rfl <;>
      exact attachInvestment_of_false st _ hfalse
  exact ⟨by rw [processOne_investment_groups, hpe],
    by rw [processOne_fund, hpe],
    by rw [processOne_fees, hpe],
    by rw [processOne_contacts, hpe]⟩

/-- Witness for C5: an `industry` span arriving while the current type is
still unset changes nothing but the anchors. -/
theorem claim5_witness :
    (processOne { current_investment_name := some "A" }
      { extraction_class := "industry", extraction_text := "Tech" }).investment_groups =
      ({ current_investment_name := some "A" } : NormState).investment_groups ∧
    (processOne { current_investment_name := some "A" }
      { extraction_class := "industry", extraction_text := "Tech" }).fund =
      ({ current_investment_name := some "A" } : NormState).fund ∧
    (processOne { current_investment_name := some "A" }
      { extraction_class := "industry", extraction_text := "Tech" }).fees =
      ({ current_investment_name := some "A" } : NormState).fees ∧
    (processOne { current_investment_name := some "A" }
      { extraction_class := "industry", extraction_text := "Tech" }).contacts =
      ({ current_investment_name := some "A" } : NormState).contacts :=
  claim5_orphan_spans_dropped _ _ (by decide) (Or.inr rfl)

/-- C6 counterexample: on `c6spans` the last (only) attached `currency` span
has text `"EUR"`, yet the one record in the final investments list carries
`currency = "USD"` — the final cleanup loop overwrites it. -/
theorem claim6_counterexample :
    (c6spans.filter (fun e => e.extraction_class == "currency")).getLast?.map
      (fun e => e.extraction_text) = some "EUR" ∧
    (normalize_to_schema c6spans).investments.map (fun g => g.currency) =
      [some "USD"] ∧
    (some "USD" : Option String) ≠ some "EUR" := by
  decide

/-- C6 amended: every record in the final investments list has
`currency = "USD"`; the cleanup loop overwrites the currency attached from
spans before the record is emitted. -/
theorem claim6_currency_forced_usd (exts : List Extraction) (g : InvestmentRec)
    (hg : g ∈ (normalize_to_schema exts).investments) : g.currency = some "USD" := by
  rcases of_mem_investments exts g hg with ⟨g0, k, hk, hfin, hgeq⟩
  subst hgeq
  rfl

/-- Witness for C6 amended: the record retained from `c6spans`. -/
theorem claim6_witness :
    ({ investment_name := some "A", investment_type := some "Equity",
       currency := some "USD", investment_cost := some (some (100 : ℚ)) } :
       InvestmentRec).currency = some "USD" :=
  claim6_currency_forced_usd c6spans _ (by decide)

/-- C7: every fund-level field (`fund_name`, `vintage_year`, `domicile`,
`strategy`, `gp_name`, `fund_reporting_period`) and every fee field
(`management_fee`, `carry`, `hurdle_rate`, `catch_up`) of the normalized
data equals the value derived from the last span of that class — last wins —
and the fee fields hold the raw span text with no numeric coercion. -/
theorem claim7_last_wins (exts : List Extraction) :
    (normalize_to_schema exts).fund.fund_name =
      ((exts.filter (fun e => e.extraction_class == "fund_name")).getLast?).map
        (fun e => e.extraction_text) ∧
    (normalize_to_schema exts).fund.vintage_year =
      ((exts.filter (fun e => e.extraction_class == "vintage_year")).getLast?).map
        (fun e => pyInt e.extraction_text) ∧
    (normalize_to_schema exts).fund.domicile =
      ((exts.filter (fun e => e.extraction_class == "domicile")).getLast?).map
        (fun e => e.extraction_text) ∧
    (normalize_to_schema exts).fund.strategy =
      ((exts.filter (fun e => e.extraction_class == "strategy")).getLast?).map
        (fun e => e.extraction_text) ∧
    (normalize_to_schema exts).fund.gp_name =
      ((exts.filter (fun e => e.extraction_class == "gp_name")).getLast?).map
        (fun e => e.extraction_text) ∧
    (normalize_to_schema exts).fund.fund_reporting_period =
      ((exts.filter (fun e => e.extraction_class == "fund_reporting_period")).getLast?).map
        (fun e => e.extraction_text) ∧
    (normalize_to_schema exts).fees.management_fee =
      ((exts.filter (fun e => e.extraction_class == "management_fee")).getLast?).map
        (fun e => e.extraction_text) ∧
    (normalize_to_schema exts).fees.carry =
      ((exts.filter (fun e => e.extraction_class == "carry")).getLast?).map
        (fun e => e.extraction_text) ∧
    (normalize_to_schema exts).fees.hurdle_rate =
      ((exts.filter (fun e => e.extraction_class == "hurdle_rate")).getLast?).map
        (fun e => e.extraction_text) ∧
    (normalize_to_schema exts).fees.catch_up =
      ((exts.filter (fun e => e.extraction_class == "catch_up")).getLast?).map
        (fun e => e.extraction_text) := by
  refine ⟨?_, ?_, ?_, ?_, ?_, ?_, ?_, ?_, ?_, ?_⟩
  · rw [show (normalize_to_schema exts).fund = (exts.foldl processOne {}).fund from rfl,
      foldl_lastWins (fun st => st.fund.fund_name) (fun e => e.extraction_text)
        "fund_name" (fun st e => by dsimp only; rw [processOne_fund, processExtraction_fund_name])]
    exact elim_none_eq_map _ _
  · rw [show (normalize_to_schema exts).fund = (exts.foldl processOne {}).fund from rfl,
      foldl_lastWins (fun st => st.fund.vintage_year) (fun e => pyInt e.extraction_text)
        "vintage_year" (fun st e => by dsimp only; rw [processOne_fund, processExtraction_vintage_year])]
    exact elim_none_eq_map _ _
  · rw [show (normalize_to_schema exts).fund = (exts.foldl processOne {}).fund from rfl,
      foldl_lastWins (fun st => st.fund.domicile) (fun e => e.extraction_text)
        "domicile" (fun st e => by dsimp only; rw [processOne_fund, processExtraction_domicile])]
    exact elim_none_eq_map _ _
  · rw [show (normalize_to_schema exts).fund = (exts.foldl processOne {}).fund from rfl,
      foldl_lastWins (fun st => st.fund.strategy) (fun e => e.extraction_text)
        "strategy" (fun st e => by dsimp only; rw [processOne_fund, processExtraction_strategy])]
    exact elim_none_eq_map _ _
  · rw [show (normalize_to_schema exts).fund = (exts.foldl processOne {}).fund from rfl,
      foldl_lastWins (fun st => st.fund.gp_name) (fun e => e.extraction_text)
        "gp_name" (fun st e => by dsimp only; rw [processOne_fund, processExtraction_gp_name])]
    exact elim_none_eq_map _ _
  · rw [show (normalize_to_schema exts).fund = (exts.foldl processOne {}).fund from rfl,
      foldl_lastWins (fun st => st.fund.fund_reporting_period)
        (fun e => e.extraction_text) "fund_reporting_period"
        (fun st e => by dsimp only; rw [processOne_fund, processExtraction_fund_reporting_period])]
    exact elim_none_eq_map _ _
  · rw [show (normalize_to_schema exts).fees = (exts.foldl processOne {}).fees from rfl,
      foldl_lastWins (fun st => st.fees.management_fee) (fun e => e.extraction_text)
        "management_fee" (fun st e => by dsimp only; rw [processOne_fees, processExtraction_management_fee])]
    exact elim_none_eq_map _ _
  · rw [show (normalize_to_schema exts).fees = (exts.foldl processOne {}).fees from rfl,
      foldl_lastWins (fun st => st.fees.carry) (fun e => e.extraction_text)
        "carry" (fun st e => by dsimp only; rw [processOne_fees, processExtraction_carry])]
    exact elim_none_eq_map _ _
  · rw [show (normalize_to_schema exts).fees = (exts.foldl processOne {}).fees from rfl,
      foldl_lastWins (fun st => st.fees.hurdle_rate) (fun e => e.extraction_text)
        "hurdle_rate" (fun st e => by dsimp only; rw [processOne_fees, processExtraction_hurdle_rate])]
    exact elim_none_eq_map _ _
  · rw [show (normalize_to_schema exts).fees = (exts.foldl processOne {}).fees from rfl,
      foldl_lastWins (fun st => st.fees.catch_up) (fun e => e.extraction_text)
        "catch_up" (fun st e => by dsimp only; rw [processOne_fees, processExtraction_catch_up])]
    exact elim_none_eq_map _ _

/-- C8: an `investment_name` span whose grouping key already exists in the
groups dict only updates the rolling `current_investment_name`; the groups
(hence every field of the existing record), fund, fees and contacts are
untouched. -/
theorem claim8_existing_record_unchanged (st : NormState) (txt : String)
    (attrs : List (String × String))
    (hk : (lookupGroup (if pyTruthy st.current_investment_type then
        txt ++ "_" ++ st.current_investment_type.getD "" else txt)
      st.investment_groups).isSome) :
    (processOne st ⟨"investment_name", txt, attrs⟩).investment_groups =
      st.investment_groups ∧
    (processOne st ⟨"investment_name", txt, attrs⟩).current_investment_name =
      some txt ∧
    (processOne st ⟨"investment_name", txt, attrs⟩).current_investment_type =
      st.current_investment_type ∧
    (processOne st ⟨"investment_name", txt, attrs⟩).fund = st.fund ∧
    (processOne st ⟨"investment_name", txt, attrs⟩).fees = st.fees ∧
    (processOne st ⟨"investment_name", txt, attrs⟩).contacts = st.contacts := by
  have hens := ensureGroup_of_isSome st.investment_groups _
    { investment_name := some txt } hk
  refine ⟨?_, ?_, ?_, ?_, ?_, ?_⟩
  · rw [processOne_investment_groups]
    exact hens
  · rw [processOne_current_investment_name]
    exact rfl
  · rw [processOne_current_investment_type]
    exact rfl
  · rw [processOne_fund]
    exact rfl
  · rw [processOne_fees]
    exact rfl
  · rw [processOne_contacts]
    exact rfl

/-- Witness for C8: a repeated `investment_name="A"` span with the key `"A"`
already present. -/
theorem claim8_witness :
    (processOne { investment_groups := [("A", { investment_name := some "A" })] }
      ⟨"investment_name", "A", []⟩).investment_groups =
      [("A", { investment_name := some "A" })] ∧
    (processOne { investment_groups := [("A", { investment_name := some "A" })] }
      ⟨"investment_name", "A", []⟩).current_investment_name = some "A" ∧
    (processOne { investment_groups := [("A", { investment_name := some "A" })] }
      ⟨"investment_name", "A", []⟩).current_investment_type = none ∧
    (processOne { investment_groups := [("A", { investment_name := some "A" })] }
      ⟨"investment_name", "A", []⟩).fund = {} ∧
    (processOne { investment_groups := [("A", { investment_name := some "A" })] }
      ⟨"investment_name", "A", []⟩).fees = {} ∧
    (processOne { investment_groups := [("A", { investment_name := some "A" })] }
      ⟨"investment_name", "A", []⟩).contacts = [] :=
  claim8_existing_record_unchanged
    { investment_groups := [("A", { investment_name := some "A" })] } "A" [] (by decide)

/-- C9 counterexample: two spans carrying the same anchor `"p3"` produce
`source_anchors = ["p3", "p3"]` — the collection is a plain list with
duplicates, not a duplicate-free set as the claim states. -/
theorem claim9_counterexample :
    (normalize_to_schema c9spans).source_anchors = ["p3", "p3"] ∧
    ¬ (normalize_to_schema c9spans).source_anchors.Nodup := by
  decide

/-- C9 amended: `source_anchors` holds the anchor attribute of every span
that carries one, in span order, one occurrence per span — duplicates are
kept (append to a list, no set semantics). -/
theorem claim9_anchor_collection (exts : List Extraction) :
    (normalize_to_schema exts).source_anchors =
      exts.filterMap (fun e => e.attributes.lookup "anchor") := by
  rw [show (normalize_to_schema exts).source_anchors =
      (exts.foldl processOne {}).source_anchors from rfl, source_anchors_foldl]
  rfl

/-- C10: every record in the final investments list has a non-null
`investment_name`: each code path that creates a group record writes the
name at creation, and the cleanup loop preserves it. -/
theorem claim10_records_have_name (exts : List Extraction) (g : InvestmentRec)
    (hg : g ∈ (normalize_to_schema exts).investments) : g.investment_name.isSome := by
  rcases of_mem_investments exts g hg with ⟨g0, k, hk, hfin, hgeq⟩
  subst hgeq
  exact groupsNamed_foldl exts {} (fun p hp => absurd hp (List.not_mem_nil p)) (k, g0) hk

/-- Witness for C10: the record retained from `c10spans`. -/
theorem claim10_witness :
    ({ investment_name := some "D", investment_type := some "Bond",
       currency := some "USD", fair_value := some (some (9 : ℚ)) } :
       InvestmentRec).investment_name.isSome :=
  claim10_records_have_name c10spans _ (by decide)

end VisionPipeline
